import Mathlib

/-!
Shallow embedding of the viewport transform engine of `slick-viewer`
(`src/app/composables/useViewportControl.ts`), over exact real arithmetic.

The browser `DOMMatrix` is modelled as a 2D affine matrix with six real
entries `a b c d e f`, mapping `(x, y)` to `(a*x + c*y + e, b*x + d*y + f)`.
`translate`, `scale` and `rotate` post-multiply, exactly as `DOMMatrix` does;
`inverse` is the closed-form adjugate-over-determinant formula (the model of
`DOMMatrix.inverse()` on the invertible 2D case).

The viewport state carries the transform matrix, the container bounding box,
the content natural size, the pending selection rectangle and the
context-menu suppression flag, mirroring the refs/state held by
`useViewportControl`.
-/

namespace SlickViewer

noncomputable section

open Classical

/-- A 2D point, model of `DOMPoint` restricted to the plane. -/
@[ext]
structure Pt where
  x : ℝ
  y : ℝ

/-- Model of a 2D `DOMMatrix`: `(x, y) ↦ (a*x + c*y + e, b*x + d*y + f)`. -/
@[ext]
structure Matrix2D where
  a : ℝ
  b : ℝ
  c : ℝ
  d : ℝ
  e : ℝ
  f : ℝ

namespace Matrix2D

/-- `new DOMMatrix()`: the identity transform. -/
def identity : Matrix2D := ⟨1, 0, 0, 1, 0, 0⟩

/-- `m.translate(tx, ty)`: post-multiplication by a translation. -/
def translate (m : Matrix2D) (tx ty : ℝ) : Matrix2D :=
  ⟨m.a, m.b, m.c, m.d, m.a * tx + m.c * ty + m.e, m.b * tx + m.d * ty + m.f⟩

/-- `m.scale(s)`: post-multiplication by a uniform scale about the origin. -/
def scale (m : Matrix2D) (s : ℝ) : Matrix2D :=
  ⟨m.a * s, m.b * s, m.c * s, m.d * s, m.e, m.f⟩

/-- `m.rotate(deg)`: post-multiplication by a rotation (argument in degrees,
as in `DOMMatrix`). -/
def rotate (m : Matrix2D) (deg : ℝ) : Matrix2D :=
  let θ := deg * (Real.pi / 180)
  ⟨m.a * Real.cos θ + m.c * Real.sin θ,
   m.b * Real.cos θ + m.d * Real.sin θ,
   -(m.a * Real.sin θ) + m.c * Real.cos θ,
   -(m.b * Real.sin θ) + m.d * Real.cos θ,
   m.e, m.f⟩

/-- Determinant of the linear part. -/
def det (m : Matrix2D) : ℝ := m.a * m.d - m.b * m.c

/-- `m.inverse()`: closed-form inverse of an (invertible) 2D affine matrix. -/
def inverse (m : Matrix2D) : Matrix2D :=
  ⟨m.d / m.det, -m.b / m.det, -m.c / m.det, m.a / m.det,
   (m.c * m.f - m.d * m.e) / m.det, (m.b * m.e - m.a * m.f) / m.det⟩

/-- `m.transformPoint(p)`. -/
def transformPoint (m : Matrix2D) (p : Pt) : Pt :=
  ⟨m.a * p.x + m.c * p.y + m.e, m.b * p.x + m.d * p.y + m.f⟩

end Matrix2D

/-- `Math.atan2(y, x)`, via the argument of the complex number `x + i*y`. -/
def atan2 (y x : ℝ) : ℝ := Complex.arg ⟨x, y⟩

/-- A selection rectangle in container-local pixel coordinates. -/
@[ext]
structure Rect where
  x : ℝ
  y : ℝ
  w : ℝ
  h : ℝ

/-- The state owned by `useViewportControl`: the transform matrix, the
container bounding box (from `useElementBounding(container)`), the content
natural size, the pending selection `area` and the module-level
`suppressContextMenu` flag. -/
@[ext]
structure ViewportState where
  matrix : Matrix2D
  containerTop : ℝ
  containerLeft : ℝ
  containerWidth : ℝ
  containerHeight : ℝ
  contentWidth : ℝ
  contentHeight : ℝ
  area : Option Rect
  suppressContextMenu : Bool

/-- The condition under which `getContextData()` returns `null`: a zero
container or content dimension (the matrix itself is always present in the
model). -/
def notReady (s : ViewportState) : Prop :=
  s.containerWidth = 0 ∨ s.containerHeight = 0 ∨ s.contentWidth = 0 ∨ s.contentHeight = 0

/-- `getContextData()` succeeds. -/
def ready (s : ViewportState) : Prop := ¬ notReady s

/-- `Math.sqrt(matrix.a * matrix.a + matrix.b * matrix.b)`: the current scale
factor read off the matrix in `zoom`. -/
def currentScaleOf (m : Matrix2D) : ℝ := Real.sqrt (m.a * m.a + m.b * m.b)

/-- `Math.max(currentWidth, currentHeight)` of `zoom`: the on-screen size of
the content under the current matrix, `currentWidth = Math.abs(currentScale *
content.width)` and likewise for the height. -/
def guardVal (s : ViewportState) : ℝ :=
  max |currentScaleOf s.matrix * s.contentWidth| |currentScaleOf s.matrix * s.contentHeight|

/-- Pivot x used by `zoom`/`rotate`: `pivot?.x ?? ctx.content.width / 2`. -/
def pivotX (s : ViewportState) (pivot : Option Pt) : ℝ :=
  (pivot.map Pt.x).getD (s.contentWidth / 2)

/-- Pivot y used by `zoom`/`rotate`: `pivot?.y ?? ctx.content.height / 2`. -/
def pivotY (s : ViewportState) (pivot : Option Pt) : ℝ :=
  (pivot.map Pt.y).getD (s.contentHeight / 2)

/-- `zoom(scaleFactor, pivot?)`.  When `scaleFactor < 1` and the on-screen
size `max(|currentScale*w|, |currentScale*h|)` is below 50 px the call
returns without touching the matrix; otherwise the matrix becomes
`matrix.translate(x, y).scale(scaleFactor).translate(-x, -y)`. -/
def zoom (s : ViewportState) (scaleFactor : ℝ) (pivot : Option Pt) : ViewportState :=
  if notReady s then s
  else if scaleFactor < 1 ∧ guardVal s < 50 then s
  else
    let x := pivotX s pivot
    let y := pivotY s pivot
    { s with matrix := ((s.matrix.translate x y).scale scaleFactor).translate (-x) (-y) }

/-- `zoomAtMousePoint(scaleFactor, event)`: converts the mouse point to
content coordinates through the inverse matrix, then zooms about it. -/
def zoomAtMousePoint (s : ViewportState) (scaleFactor clientX clientY : ℝ) : ViewportState :=
  if notReady s then s
  else
    let mouseX := clientX - s.containerLeft
    let mouseY := clientY - s.containerTop
    let p := s.matrix.inverse.transformPoint ⟨mouseX, mouseY⟩
    zoom s scaleFactor (some ⟨p.x, p.y⟩)

/-- `rotate(deg, pivot?)`. -/
def rotateOp (s : ViewportState) (deg : ℝ) (pivot : Option Pt) : ViewportState :=
  if notReady s then s
  else
    let x := pivotX s pivot
    let y := pivotY s pivot
    { s with matrix := ((s.matrix.translate x y).rotate deg).translate (-x) (-y) }

/-- `rotateAtMousePoint(deg, event)`. -/
def rotateAtMousePoint (s : ViewportState) (deg clientX clientY : ℝ) : ViewportState :=
  if notReady s then s
  else
    let mouseX := clientX - s.containerLeft
    let mouseY := clientY - s.containerTop
    let p := s.matrix.inverse.transformPoint ⟨mouseX, mouseY⟩
    rotateOp s deg (some ⟨p.x, p.y⟩)

/-- `rotateExact(deg)`: cancels the current rotation (extracted with
`atan2(b, a)`, converted to degrees) and applies `deg`, about the content
center. -/
def rotateExact (s : ViewportState) (deg : ℝ) : ViewportState :=
  if notReady s then s
  else
    { s with matrix :=
        ((((s.matrix.translate (s.contentWidth / 2) (s.contentHeight / 2)).rotate
            (-(atan2 s.matrix.b s.matrix.a) * (180 / Real.pi))).rotate deg).translate
          (-(s.contentWidth / 2)) (-(s.contentHeight / 2))) }

/-- `centerImage(padding)` (the `fit` operation; the defaulting chain
`padding ?? options?.padding ?? 0` is resolved by the caller here). -/
def centerImage (s : ViewportState) (padding : ℝ) : ViewportState :=
  if notReady s then s
  else
    let scl := min ((s.containerWidth - padding) / s.contentWidth)
                   ((s.containerHeight - padding) / s.contentHeight)
    { s with matrix :=
        ((Matrix2D.identity.translate (s.containerWidth / 2) (s.containerHeight / 2)).scale
          scl).translate (-(s.contentWidth / 2)) (-(s.contentHeight / 2)) }

/-- `pad(x, y)`: pan by a screen-space delta, converted to a content-space
delta through the inverse matrix. -/
def pad (s : ViewportState) (x y : ℝ) : ViewportState :=
  if notReady s then s
  else
    let inv := s.matrix.inverse
    let origin := inv.transformPoint ⟨0, 0⟩
    let moved := inv.transformPoint ⟨x, y⟩
    { s with matrix := s.matrix.translate (moved.x - origin.x) (moved.y - origin.y) }

/-- `select(area)`: zoom and pan so the selected container-local rectangle
fills the container. -/
def select (s : ViewportState) (r : Rect) : ViewportState :=
  if notReady s then s
  else
    let inv := s.matrix.inverse
    let origin := inv.transformPoint ⟨s.containerWidth / 2, s.containerHeight / 2⟩
    let areaCenter := inv.transformPoint ⟨r.x + r.w / 2, r.y + r.h / 2⟩
    let scaleFactor := min (s.containerWidth / r.w) (s.containerHeight / r.h)
    { s with matrix :=
        ((s.matrix.translate origin.x origin.y).scale scaleFactor).translate (-areaCenter.x) (-areaCenter.y) }

/-- Derived read accessor of the rotation angle, `atan2(b, a) * 180/π`
(the extraction `rotateExact` performs, exposed as a reading). -/
def currentRotationDegrees (m : Matrix2D) : ℝ := atan2 m.b m.a * (180 / Real.pi)

/-- One invocation of a public transform operation, with its arguments. -/
inductive Op where
  | zoom (scaleFactor : ℝ) (pivot : Option Pt)
  | rotate (deg : ℝ) (pivot : Option Pt)
  | rotateExact (deg : ℝ)
  | centerImage (padding : ℝ)
  | pad (x y : ℝ)
  | select (r : Rect)

/-- Run one public operation on the viewport state. -/
def applyOp (s : ViewportState) : Op → ViewportState
  | .zoom f p => zoom s f p
  | .rotate d p => rotateOp s d p
  | .rotateExact d => rotateExact s d
  | .centerImage padding => centerImage s padding
  | .pad x y => pad s x y
  | .select r => select s r

/-- Run a sequence of public operations. -/
def applyOps (s : ViewportState) (ops : List Op) : ViewportState :=
  ops.foldl applyOp s

/-!
Gesture machinery: the pointer state machine of `usePointerAction`, with the
`pan` / `rotate` / `area` action table that `useViewportControl` installs, and
the `wheel` / `contextmenu` listeners of `useViewportControl`.
-/

/-- The fields of a `PointerEvent` the handlers read. -/
structure PEvent where
  pointerId : ℕ
  button : ℕ
  shiftKey : Bool
  ctrlKey : Bool
  clientX : ℝ
  clientY : ℝ

/-- The fields of a `WheelEvent` the wheel listener reads. -/
structure WheelEvt where
  buttons : ℕ
  shiftKey : Bool
  deltaY : ℝ
  clientX : ℝ
  clientY : ℝ

/-- The keys of the action table passed to `usePointerAction`. -/
inductive ActionName where
  | pan
  | rotate
  | area
deriving DecidableEq

/-- The `pointer` ref of `usePointerAction`. -/
@[ext]
structure PointerState where
  suppressContextMenu : Bool
  pointerId : Option ℕ
  down : Bool
  action : Option ActionName
  startX : ℝ
  startY : ℝ
  x : ℝ
  y : ℝ

/-- Idle pointer state (the initial value of the `pointer` ref). -/
def PointerState.idle : PointerState :=
  ⟨false, none, false, none, 0, 0, 0, 0⟩

/-- Combined state: the viewport refs plus the gesture-session pointer ref. -/
@[ext]
structure ControlState where
  viewport : ViewportState
  pointer : PointerState

/-- `mouseInOuterBounds(event)` with `DRAG_MARGIN = 60`. -/
def mouseInOuterBounds (s : ViewportState) (clientX clientY : ℝ) : Prop :=
  let x := clientX - s.containerLeft
  let y := clientY - s.containerTop
  60 ≤ x ∧ x ≤ s.containerWidth - 60 ∧ 60 ≤ y ∧ y ≤ s.containerHeight - 60

/-- The `down` predicate of the `pan` action (`undefined` is `none`). -/
def panDown (s : ViewportState) (e : PEvent) : Option Bool :=
  if e.shiftKey || e.ctrlKey then none
  else if e.button = 1 then some true
  else if e.button = 0 then some (decide (mouseInOuterBounds s e.clientX e.clientY))
  else none

/-- The `down` predicate of the `rotate` action. -/
def rotateDown (s : ViewportState) (e : PEvent) : Option Bool :=
  if e.shiftKey || e.ctrlKey then none
  else if e.button = 0 then some (!(decide (mouseInOuterBounds s e.clientX e.clientY)))
  else none

/-- The `down` predicate of the `area` action. -/
def areaDown (_s : ViewportState) (e : PEvent) : Option Bool :=
  if e.shiftKey || e.ctrlKey then none
  else if e.button = 2 then some true
  else none

/-- The pointer record written when an action's `down` callback accepts. -/
def startSession (e : PEvent) (name : ActionName) : PointerState :=
  ⟨false, some e.pointerId, true, some name,
   e.clientX, e.clientY, e.clientX, e.clientY⟩

/-- The `pointerdown` listener of `usePointerAction` with the viewer's action
table.  The handler loop calls each action's `down` callback in insertion
order (`pan`, `rotate`, `area`); after the first acceptance it calls
`preventDefault()`, so the `if (event.defaultPrevented) return` at the top of
each later iteration makes the first acceptance win — modelled directly as a
first-match cascade.  Note the handler does not test `pointer.down`: an
acceptance overwrites whatever session was active. -/
def onPointerDown (c : ControlState) (e : PEvent) : ControlState :=
  if e.shiftKey || e.ctrlKey then c
  else if c.viewport.containerWidth = 0 ∨ c.viewport.containerHeight = 0 then c
  else if panDown c.viewport e = some true then { c with pointer := startSession e .pan }
  else if rotateDown c.viewport e = some true then { c with pointer := startSession e .rotate }
  else if areaDown c.viewport e = some true then { c with pointer := startSession e .area }
  else c

/-- The `move` callback of the `rotate` action
(`ROTATE_POINTER_SENSITIVITY = 1/100`, with position-aware sign flips that
compare raw client coordinates against half the container size). -/
def rotateMove (s : ViewportState) (deltaX deltaY clientX clientY : ℝ) : ViewportState :=
  let rx := deltaX * (1 / 100)
  let ry := deltaY * (1 / 100)
  let rx := if s.containerHeight / 2 < clientY then rx * (-1) else rx
  let ry := if clientX < s.containerWidth / 2 then ry * (-1) else ry
  rotateOp s (rx + ry) none

/-- The `move` callback of the `area` action (`MIN_AREA = 12`): below the
threshold on either axis the pending rect is cleared; above it the
context-menu suppression flag is raised and the normalized rect stored. -/
def areaMove (s : ViewportState) (startX startY x y : ℝ) : ViewportState :=
  let top := startY - s.containerTop
  let left := startX - s.containerLeft
  let width := x - startX
  let height := y - startY
  if |width| < 12 ∨ |height| < 12 then { s with area := none }
  else
    { s with suppressContextMenu := true,
             area := some ⟨min left (left + width), min top (top + height), |width|, |height|⟩ }

/-- The global `pointermove` listener of `usePointerAction`: events are
dropped unless a session is down and the pointer id matches; otherwise the
pointer position is updated and the active action's `move` callback runs with
the incremental delta. -/
def onPointerMove (c : ControlState) (e : PEvent) : ControlState :=
  if c.pointer.down = false ∨ c.pointer.pointerId ≠ some e.pointerId then c
  else
    let deltaX := e.clientX - c.pointer.x
    let deltaY := e.clientY - c.pointer.y
    let p := { c.pointer with x := e.clientX, y := e.clientY }
    match c.pointer.action with
    | some .pan => { viewport := pad c.viewport deltaX deltaY, pointer := p }
    | some .rotate => { viewport := rotateMove c.viewport deltaX deltaY e.clientX e.clientY, pointer := p }
    | some .area => { viewport := areaMove c.viewport p.startX p.startY p.x p.y, pointer := p }
    | none => { c with pointer := p }

/-- The global `pointerup` / `pointercancel` listener of `usePointerAction`:
events are dropped unless a session is down with a matching pointer id;
otherwise the session ends and the action's `up` callback runs (only `area`
has one: it feeds the pending rect to `select` and clears it). -/
def onPointerUp (c : ControlState) (e : PEvent) : ControlState :=
  if c.pointer.down = false ∨ c.pointer.pointerId ≠ some e.pointerId then c
  else
    let p := { c.pointer with pointerId := none, down := false, action := none }
    match c.pointer.action with
    | some .area =>
      let v := match c.viewport.area with
               | some r => select c.viewport r
               | none => c.viewport
      { viewport := { v with area := none }, pointer := p }
    | _ => { c with pointer := p }

/-- `Math.sign`, on exact reals. -/
def jsSign (x : ℝ) : ℝ := if x < 0 then -1 else if 0 < x then 1 else 0

/-- The `wheel` listener of `useViewportControl`: a right-button wheel raises
the context-menu suppression flag; shift or right-button wheel rotates about
the cursor (15° with shift, else 2°, signed by the scroll direction), and a
plain wheel zooms about the cursor by 1.1 or 0.9. -/
def onWheel (c : ControlState) (e : WheelEvt) : ControlState :=
  let v := if e.buttons = 2 then { c.viewport with suppressContextMenu := true } else c.viewport
  if e.shiftKey || e.buttons = 2 then
    let angle := jsSign e.deltaY * (if e.shiftKey then 15 else 2)
    { c with viewport := rotateAtMousePoint v angle e.clientX e.clientY }
  else
    { c with viewport := zoomAtMousePoint v (if e.deltaY < 0 then 1.1 else 0.9) e.clientX e.clientY }

/-- The capture-phase `contextmenu` listener of `useViewportControl`: with
shift held it does nothing; otherwise, if the suppression flag is set, it
clears the flag and prevents the event.  The returned boolean reports whether
the event was prevented. -/
def onContextMenu (c : ControlState) (shiftKey : Bool) : ControlState × Bool :=
  if shiftKey then (c, false)
  else if c.viewport.suppressContextMenu then
    ({ c with viewport := { c.viewport with suppressContextMenu := false } }, true)
  else (c, false)

end

/-!
Supporting algebra lemmas about the matrix model.
-/

namespace Matrix2D

theorem det_translate (m : Matrix2D) (tx ty : ℝ) : (m.translate tx ty).det = m.det := by
  simp [translate, det]

theorem det_scale (m : Matrix2D) (s : ℝ) : (m.scale s).det = m.det * (s * s) := by
  simp [scale, det]; ring

theorem det_rotate (m : Matrix2D) (deg : ℝ) : (m.rotate deg).det = m.det := by
  simp only [rotate, det]
  linear_combination (m.a * m.d - m.b * m.c) * Real.sin_sq_add_cos_sq (deg * (Real.pi / 180))

theorem rotate_zero (m : Matrix2D) : m.rotate 0 = m := by
  simp [rotate]

theorem translate_translate_neg (m : Matrix2D) (x y : ℝ) :
    (m.translate x y).translate (-x) (-y) = m := by
  ext <;> simp [translate] <;> ring

theorem transformPoint_translate (m : Matrix2D) (tx ty : ℝ) (p : Pt) :
    (m.translate tx ty).transformPoint p = m.transformPoint ⟨p.x + tx, p.y + ty⟩ := by
  ext <;> simp [translate, transformPoint] <;> ring

theorem inverse_transformPoint_left (m : Matrix2D) (h : m.det ≠ 0) (p : Pt) :
    m.inverse.transformPoint (m.transformPoint p) = p := by
  have hd : m.a * m.d - m.b * m.c ≠ 0 := h
  ext <;> simp only [inverse, transformPoint, det] <;> field_simp <;> ring

theorem transformPoint_inverse_right (m : Matrix2D) (h : m.det ≠ 0) (p : Pt) :
    m.transformPoint (m.inverse.transformPoint p) = p := by
  have hd : m.a * m.d - m.b * m.c ≠ 0 := h
  ext <;> simp only [inverse, transformPoint, det] <;> field_simp <;> ring

/-- The pivot of a translate–scale–translate-back composition is mapped the
same way by the composed matrix as by the original one. -/
theorem zoomAbout_pivot (m : Matrix2D) (x y f : ℝ) :
    (((m.translate x y).scale f).translate (-x) (-y)).transformPoint ⟨x, y⟩ =
      m.transformPoint ⟨x, y⟩ := by
  ext <;> simp [translate, scale, transformPoint] <;> ring

theorem det_zoomAbout (m : Matrix2D) (x y f : ℝ) :
    (((m.translate x y).scale f).translate (-x) (-y)).det = m.det * (f * f) := by
  rw [det_translate, det_scale, det_translate]

end Matrix2D

/-- A concrete ready viewport: container 800×600 at the screen origin,
content 400×300, identity transform. -/
def exampleState : ViewportState :=
  { matrix := Matrix2D.identity
    containerTop := 0
    containerLeft := 0
    containerWidth := 800
    containerHeight := 600
    contentWidth := 400
    contentHeight := 300
    area := none
    suppressContextMenu := false }

theorem exampleState_ready : ready exampleState := by
  simp [ready, notReady, exampleState]

/-- C2 (amended): for every ready state with positive content size and
padding smaller than both container dimensions, `centerImage` discards the
previous transform and produces exactly
`identity.translate(containerW/2, containerH/2).scale(min((containerW-padding)/contentW, (containerH-padding)/contentH)).translate(-contentW/2, -contentH/2)`;
the content center maps to the container center, and the extracted rotation
is 0. -/
theorem fit_centers_and_unrotated (s : ViewportState) (padding : ℝ)
    (hr : ready s)
    (hw : 0 < s.contentWidth) (hh : 0 < s.contentHeight)
    (hpw : padding < s.containerWidth) (hph : padding < s.containerHeight) :
    (centerImage s padding).matrix =
      ((Matrix2D.identity.translate (s.containerWidth / 2) (s.containerHeight / 2)).scale
        (min ((s.containerWidth - padding) / s.contentWidth)
             ((s.containerHeight - padding) / s.contentHeight))).translate
        (-(s.contentWidth / 2)) (-(s.contentHeight / 2)) ∧
    (centerImage s padding).matrix.transformPoint ⟨s.contentWidth / 2, s.contentHeight / 2⟩ =
      ⟨s.containerWidth / 2, s.containerHeight / 2⟩ ∧
    currentRotationDegrees (centerImage s padding).matrix = 0 := by
  have hmx : (centerImage s padding).matrix =
      ((Matrix2D.identity.translate (s.containerWidth / 2) (s.containerHeight / 2)).scale
        (min ((s.containerWidth - padding) / s.contentWidth)
             ((s.containerHeight - padding) / s.contentHeight))).translate
        (-(s.contentWidth / 2)) (-(s.contentHeight / 2)) := by
    rw [centerImage, if_neg hr]
  have hscl : 0 < min ((s.containerWidth - padding) / s.contentWidth)
      ((s.containerHeight - padding) / s.contentHeight) :=
    lt_min (div_pos (by linarith) hw) (div_pos (by linarith) hh)
  refine ⟨hmx, ?_, ?_⟩
  · rw [hmx]
    ext <;> simp [Matrix2D.identity, Matrix2D.translate, Matrix2D.scale,
      Matrix2D.transformPoint]
  · rw [hmx]
    have hb : (((Matrix2D.identity.translate (s.containerWidth / 2) (s.containerHeight / 2)).scale
        (min ((s.containerWidth - padding) / s.contentWidth)
             ((s.containerHeight - padding) / s.contentHeight))).translate
        (-(s.contentWidth / 2)) (-(s.contentHeight / 2))).b = 0 := by
      simp [Matrix2D.identity, Matrix2D.translate, Matrix2D.scale]
    have ha : (((Matrix2D.identity.translate (s.containerWidth / 2) (s.containerHeight / 2)).scale
        (min ((s.containerWidth - padding) / s.contentWidth)
             ((s.containerHeight - padding) / s.contentHeight))).translate
        (-(s.contentWidth / 2)) (-(s.contentHeight / 2))).a =
        min ((s.containerWidth - padding) / s.contentWidth)
            ((s.containerHeight - padding) / s.contentHeight) := by
      simp [Matrix2D.identity, Matrix2D.translate, Matrix2D.scale]
    rw [currentRotationDegrees, hb, ha, atan2]
    rw [Complex.arg_eq_zero_iff.mpr ⟨le_of_lt hscl, rfl⟩]
    ring

/-- C2 counterexample: with padding 900 on the 800×600 container and 400×300
content, the fit scale is `min(-100/400, -300/300) = -1`, and the extracted
rotation of the fitted matrix is 180°, not 0. -/
theorem fit_rotation_cex :
    currentRotationDegrees (centerImage exampleState 900).matrix ≠ 0 := by
  have hmx : (centerImage exampleState 900).matrix = ⟨-1, 0, 0, -1, 600, 450⟩ := by
    rw [centerImage, if_neg exampleState_ready]
    ext <;> norm_num [exampleState, Matrix2D.identity, Matrix2D.translate, Matrix2D.scale,
      min_def]
  rw [hmx, currentRotationDegrees, atan2]
  rw [Complex.arg_eq_pi_iff.mpr ⟨by norm_num, rfl⟩]
  have h180 : Real.pi * (180 / Real.pi) = 180 := by
    field_simp
  rw [h180]
  norm_num

/-- C2 witness: the amended theorem applied to the concrete 800×600 container
with 400×300 content and padding 40 (fit scale `min(760/400, 560/300)`). -/
theorem fit_centers_witness :
    (centerImage exampleState 40).matrix =
      ((Matrix2D.identity.translate (exampleState.containerWidth / 2) (exampleState.containerHeight / 2)).scale
        (min ((exampleState.containerWidth - 40) / exampleState.contentWidth)
             ((exampleState.containerHeight - 40) / exampleState.contentHeight))).translate
        (-(exampleState.contentWidth / 2)) (-(exampleState.contentHeight / 2)) ∧
    (centerImage exampleState 40).matrix.transformPoint
        ⟨exampleState.contentWidth / 2, exampleState.contentHeight / 2⟩ =
      ⟨exampleState.containerWidth / 2, exampleState.containerHeight / 2⟩ ∧
    currentRotationDegrees (centerImage exampleState 40).matrix = 0 :=
  fit_centers_and_unrotated exampleState 40 exampleState_ready
    (by norm_num [exampleState]) (by norm_num [exampleState])
    (by norm_num [exampleState]) (by norm_num [exampleState])

/-!
Helper lemmas about `zoom` and `zoomAtMousePoint`.
-/

theorem zoom_apply (s : ViewportState) (f : ℝ) (p : Option Pt)
    (hr : ready s) (hfloor : ¬ (f < 1 ∧ guardVal s < 50)) :
    zoom s f p = { s with matrix := ((s.matrix.translate (pivotX s p) (pivotY s p)).scale f).translate (-(pivotX s p)) (-(pivotY s p)) } := by
  rw [zoom, if_neg hr, if_neg hfloor]

theorem zoom_fixed (s : ViewportState) (f : ℝ) (p : Option Pt)
    (hf : f < 1) (hguard : guardVal s < 50) :
    zoom s f p = s := by
  by_cases h : notReady s
  · rw [zoom, if_pos h]
  · rw [zoom, if_neg h, if_pos ⟨hf, hguard⟩]

theorem notReady_zoom (s : ViewportState) (f : ℝ) (p : Option Pt) :
    notReady (zoom s f p) ↔ notReady s := by
  unfold zoom
  split
  · exact Iff.rfl
  · split
    · exact Iff.rfl
    · simp [notReady]

theorem zoom_contentWidth (s : ViewportState) (f : ℝ) (p : Option Pt) :
    (zoom s f p).contentWidth = s.contentWidth := by
  unfold zoom
  split
  · rfl
  · split
    · rfl
    · rfl

theorem zoom_contentHeight (s : ViewportState) (f : ℝ) (p : Option Pt) :
    (zoom s f p).contentHeight = s.contentHeight := by
  unfold zoom
  split
  · rfl
  · split
    · rfl
    · rfl

theorem pivotX_zoom (s : ViewportState) (f : ℝ) (p q : Option Pt) :
    pivotX (zoom s f p) q = pivotX s q := by
  rw [pivotX, pivotX, zoom_contentWidth]

theorem pivotY_zoom (s : ViewportState) (f : ℝ) (p q : Option Pt) :
    pivotY (zoom s f p) q = pivotY s q := by
  rw [pivotY, pivotY, zoom_contentHeight]

theorem zoomAtMousePoint_eq (s : ViewportState) (f cx cy : ℝ) (hr : ready s) :
    zoomAtMousePoint s f cx cy =
      zoom s f (some (s.matrix.inverse.transformPoint
        ⟨cx - s.containerLeft, cy - s.containerTop⟩)) := by
  rw [zoomAtMousePoint, if_neg hr]

/-- C4: for every ready state with invertible matrix, `pad(dx, dy)` moves
every rendered point on screen by exactly the screen-space delta `(dx, dy)`,
whatever the current zoom and rotation. -/
theorem pad_moves_by_screen_delta (s : ViewportState) (dx dy : ℝ)
    (hr : ready s) (hdet : s.matrix.det ≠ 0) (p : Pt) :
    (pad s dx dy).matrix.transformPoint p =
      ⟨(s.matrix.transformPoint p).x + dx, (s.matrix.transformPoint p).y + dy⟩ := by
  rw [pad, if_neg hr]
  have hd : s.matrix.a * s.matrix.d - s.matrix.b * s.matrix.c ≠ 0 := hdet
  ext
  · simp only [Matrix2D.translate, Matrix2D.inverse, Matrix2D.transformPoint, Matrix2D.det]
    field_simp
    ring
  · simp only [Matrix2D.translate, Matrix2D.inverse, Matrix2D.transformPoint, Matrix2D.det]
    field_simp
    ring

/-- C4 witness: the theorem at the concrete ready state, delta `(7, -3)` and
content point `(1, 2)`. -/
theorem pad_moves_by_screen_delta_witness :
    (pad exampleState 7 (-3)).matrix.transformPoint ⟨1, 2⟩ =
      ⟨(exampleState.matrix.transformPoint ⟨1, 2⟩).x + 7,
       (exampleState.matrix.transformPoint ⟨1, 2⟩).y + (-3)⟩ :=
  pad_moves_by_screen_delta exampleState 7 (-3) exampleState_ready
    (by norm_num [exampleState, Matrix2D.identity, Matrix2D.det]) ⟨1, 2⟩

/-- C3 (amended): for every ready state with invertible matrix, every screen
point and every nonzero factor with the zoom-out floor not engaged,
`zoomAtMousePoint` leaves the content-space point under the cursor unchanged:
the inverse images of the screen point through the old and the new matrix
agree. -/
theorem zoomAtMousePoint_fixes_cursor_point (s : ViewportState) (f sx sy : ℝ)
    (hr : ready s) (hdet : s.matrix.det ≠ 0) (hf : f ≠ 0)
    (hfloor : ¬ (f < 1 ∧ guardVal s < 50)) :
    (zoomAtMousePoint s f sx sy).matrix.inverse.transformPoint
        ⟨sx - s.containerLeft, sy - s.containerTop⟩ =
      s.matrix.inverse.transformPoint ⟨sx - s.containerLeft, sy - s.containerTop⟩ := by
  set q : Pt := ⟨sx - s.containerLeft, sy - s.containerTop⟩ with hq
  set piv : Pt := s.matrix.inverse.transformPoint q with hpiv
  rw [zoomAtMousePoint_eq s f sx sy hr, zoom_apply s f (some piv) hr hfloor]
  have hpx : pivotX s (some piv) = piv.x := rfl
  have hpy : pivotY s (some piv) = piv.y := rfl
  simp only [hpx, hpy]
  set M : Matrix2D := ((s.matrix.translate piv.x piv.y).scale f).translate (-piv.x) (-piv.y)
    with hM
  have hdet2 : M.det ≠ 0 := by
    rw [hM, Matrix2D.det_zoomAbout]
    exact mul_ne_zero hdet (mul_ne_zero hf hf)
  have hfix : M.transformPoint piv = q := by
    have h1 := Matrix2D.zoomAbout_pivot s.matrix piv.x piv.y f
    have h2 : (⟨piv.x, piv.y⟩ : Pt) = piv := rfl
    rw [h2] at h1
    rw [hM, h1, hpiv]
    exact Matrix2D.transformPoint_inverse_right s.matrix hdet q
  calc M.inverse.transformPoint q
      = M.inverse.transformPoint (M.transformPoint piv) := by rw [hfix]
    _ = piv := Matrix2D.inverse_transformPoint_left M hdet2 piv

/-- C3 counterexample: at factor 0 (allowed by the claim whenever the floor
is not engaged) the resulting matrix is singular and the cursor point is not
preserved: on the concrete ready state, the inverse image of the screen point
`(10, 20)` changes. -/
theorem zoomAtMousePoint_cex :
    (zoomAtMousePoint exampleState 0 10 20).matrix.inverse.transformPoint
        ⟨10 - exampleState.containerLeft, 20 - exampleState.containerTop⟩ ≠
      exampleState.matrix.inverse.transformPoint
        ⟨10 - exampleState.containerLeft, 20 - exampleState.containerTop⟩ := by
  have hfloor : ¬ ((0 : ℝ) < 1 ∧ guardVal exampleState < 50) := by
    norm_num [guardVal, currentScaleOf, exampleState, Matrix2D.identity, Real.sqrt_one]
  rw [zoomAtMousePoint_eq exampleState 0 10 20 exampleState_ready,
      zoom_apply exampleState 0 _ exampleState_ready hfloor]
  norm_num [exampleState, Matrix2D.identity, Matrix2D.inverse, Matrix2D.translate,
    Matrix2D.scale, Matrix2D.transformPoint, Matrix2D.det, pivotX, pivotY, Pt.ext_iff]

/-- C3 witness: the amended theorem at the concrete ready state, factor 2 and
screen point `(10, 20)`. -/
theorem zoomAtMousePoint_fixes_cursor_point_witness :
    (zoomAtMousePoint exampleState 2 10 20).matrix.inverse.transformPoint
        ⟨10 - exampleState.containerLeft, 20 - exampleState.containerTop⟩ =
      exampleState.matrix.inverse.transformPoint
        ⟨10 - exampleState.containerLeft, 20 - exampleState.containerTop⟩ :=
  zoomAtMousePoint_fixes_cursor_point exampleState 2 10 20 exampleState_ready
    (by norm_num [exampleState, Matrix2D.identity, Matrix2D.det]) (by norm_num)
    (by norm_num)

/-- C5: for every ready state, factor above 1 and pivot, zooming by the
factor and then by its reciprocal at the same pivot restores the original
transform matrix exactly, provided the floor is not engaged for the second
call. -/
theorem zoom_roundtrip (s : ViewportState) (f : ℝ) (p : Option Pt)
    (hr : ready s) (hf : 1 < f)
    (hfloor : ¬ (1 / f < 1 ∧ guardVal (zoom s f p) < 50)) :
    (zoom (zoom s f p) (1 / f) p).matrix = s.matrix := by
  have hf0 : f ≠ 0 := ne_of_gt (lt_trans one_pos hf)
  have hfloor1 : ¬ (f < 1 ∧ guardVal s < 50) := fun h => absurd h.1 (not_lt.mpr (le_of_lt hf))
  have hr2 : ready (zoom s f p) := by
    rw [ready, notReady_zoom]; exact hr
  rw [zoom_apply (zoom s f p) (1 / f) p hr2 hfloor, pivotX_zoom, pivotY_zoom,
      zoom_apply s f p hr hfloor1]
  ext
  · simp only [Matrix2D.translate, Matrix2D.scale]
    field_simp
  · simp only [Matrix2D.translate, Matrix2D.scale]
    field_simp
  · simp only [Matrix2D.translate, Matrix2D.scale]
    field_simp
  · simp only [Matrix2D.translate, Matrix2D.scale]
    field_simp
  · simp only [Matrix2D.translate, Matrix2D.scale]
    field_simp
    ring
  · simp only [Matrix2D.translate, Matrix2D.scale]
    field_simp
    ring

/-- C5 witness: the theorem at the concrete ready state with factor 2 and the
default pivot. -/
theorem zoom_roundtrip_witness :
    (zoom (zoom exampleState 2 none) (1 / 2) none).matrix = exampleState.matrix := by
  have h4 : Real.sqrt 4 = 2 := by
    rw [show (4 : ℝ) = 2 ^ 2 by norm_num, Real.sqrt_sq (by norm_num : (0 : ℝ) ≤ 2)]
  have hz := zoom_apply exampleState 2 none exampleState_ready (by norm_num)
  have hfloor : ¬ ((1 / 2 : ℝ) < 1 ∧ guardVal (zoom exampleState 2 none) < 50) := by
    rw [hz]
    norm_num [guardVal, currentScaleOf, exampleState, Matrix2D.identity, Matrix2D.translate,
      Matrix2D.scale, pivotX, pivotY, h4]
  exact zoom_roundtrip exampleState 2 none exampleState_ready (by norm_num) hfloor

/-!
C1: the zoom-out floor and stabilization of repeated `zoom(0.9)`.
-/

noncomputable section

/-- Iterated `zoom(0.9)` (the `'-'` shortcut pressed repeatedly). -/
def zoomIter (s : ViewportState) : ℕ → ViewportState
  | 0 => s
  | n + 1 => zoom (zoomIter s n) 0.9 none

end

theorem currentScaleOf_zoomAbout (m : Matrix2D) (x y f : ℝ) (hf : 0 ≤ f) :
    currentScaleOf (((m.translate x y).scale f).translate (-x) (-y)) =
      f * currentScaleOf m := by
  simp only [Matrix2D.translate, Matrix2D.scale, currentScaleOf]
  rw [show m.a * f * (m.a * f) + m.b * f * (m.b * f) = f ^ 2 * (m.a * m.a + m.b * m.b) by ring]
  rw [Real.sqrt_mul (sq_nonneg f), Real.sqrt_sq hf]

theorem guardVal_nonneg (s : ViewportState) : 0 ≤ guardVal s :=
  le_trans (abs_nonneg _) (le_max_left _ _)

theorem guardVal_zoom_step (s : ViewportState) (hr : ready s)
    (hge : ¬ guardVal s < 50) :
    guardVal (zoom s 0.9 none) = 0.9 * guardVal s := by
  have hfloor : ¬ ((0.9 : ℝ) < 1 ∧ guardVal s < 50) := fun h => hge h.2
  rw [zoom_apply s 0.9 none hr hfloor]
  show max _ _ = _
  rw [guardVal]
  have hsc : currentScaleOf (((s.matrix.translate (pivotX s none) (pivotY s none)).scale 0.9).translate (-(pivotX s none)) (-(pivotY s none))) = 0.9 * currentScaleOf s.matrix :=
    currentScaleOf_zoomAbout s.matrix (pivotX s none) (pivotY s none) 0.9 (by norm_num)
  show max |currentScaleOf _ * s.contentWidth| |currentScaleOf _ * s.contentHeight| = _
  rw [hsc]
  rw [show (0.9 : ℝ) * currentScaleOf s.matrix * s.contentWidth = 0.9 * (currentScaleOf s.matrix * s.contentWidth) by ring]
  rw [show (0.9 : ℝ) * currentScaleOf s.matrix * s.contentHeight = 0.9 * (currentScaleOf s.matrix * s.contentHeight) by ring]
  rw [abs_mul 0.9, abs_mul 0.9, abs_of_nonneg (by norm_num : (0:ℝ) ≤ 0.9)]
  exact (mul_max_of_nonneg _ _ (by norm_num : (0:ℝ) ≤ 0.9)).symm

theorem ready_zoomIter (s : ViewportState) (hr : ready s) (k : ℕ) :
    ready (zoomIter s k) := by
  induction k with
  | zero => exact hr
  | succ n ih =>
    show ready (zoom (zoomIter s n) 0.9 none)
    rw [ready, notReady_zoom]
    exact ih

theorem zoomIter_const_from (s : ViewportState) (j : ℕ)
    (hfix : zoom (zoomIter s j) 0.9 none = zoomIter s j) :
    ∀ m, j ≤ m → zoomIter s m = zoomIter s j := by
  intro m hm
  induction m, hm using Nat.le_induction with
  | base => rfl
  | succ n hn ih =>
    show zoom (zoomIter s n) 0.9 none = zoomIter s j
    rw [ih, hfix]

/-- C1: for every ready state, `zoom(factor, pivot)` with `factor < 1` leaves
the matrix unchanged when the on-screen size `max(currentScale*contentW,
currentScale*contentH)` (with `currentScale = sqrt(a²+b²)`) is below 50;
otherwise — and always when `factor ≥ 1` — it sets the matrix to
`current.translate(pivot).scale(factor).translate(-pivot)`; consequently a
repeated sequence of `zoom(0.9)` calls eventually stops changing the
state. -/
theorem zoom_floor_behavior (s : ViewportState) (f : ℝ) (p : Option Pt)
    (hr : ready s) :
    (f < 1 → guardVal s < 50 → zoom s f p = s) ∧
    (¬ (f < 1 ∧ guardVal s < 50) →
      (zoom s f p).matrix = ((s.matrix.translate (pivotX s p) (pivotY s p)).scale f).translate (-(pivotX s p)) (-(pivotY s p))) ∧
    (∃ n, ∀ m, n ≤ m → zoomIter s m = zoomIter s n) := by
  refine ⟨fun h1 h2 => zoom_fixed s f p h1 h2, fun hfloor => ?_, ?_⟩
  · rw [zoom_apply s f p hr hfloor]
  · -- stabilization: there is a stage `j` at which the guard engages.
    have key : ∃ j, guardVal (zoomIter s j) < 50 := by
      have inv : ∀ k, (∃ j, j ≤ k ∧ guardVal (zoomIter s j) < 50) ∨
          guardVal (zoomIter s k) = 0.9 ^ k * guardVal s := by
        intro k
        induction k with
        | zero => right; rw [pow_zero, one_mul]; rfl
        | succ n ih =>
          rcases ih with ⟨j, hj, hlt⟩ | hG
          · exact Or.inl ⟨j, le_trans hj (Nat.le_succ n), hlt⟩
          · by_cases hlt : guardVal (zoomIter s n) < 50
            · exact Or.inl ⟨n, Nat.le_succ n, hlt⟩
            · right
              show guardVal (zoom (zoomIter s n) 0.9 none) = _
              rw [guardVal_zoom_step (zoomIter s n) (ready_zoomIter s hr n) hlt, hG,
                  pow_succ]
              ring
      by_cases h0 : guardVal s < 50
      · exact ⟨0, h0⟩
      · have hG0 : (0 : ℝ) < guardVal s :=
          lt_of_lt_of_le (by norm_num) (not_lt.mp h0)
        obtain ⟨N, hN⟩ := exists_pow_lt_of_lt_one
          (div_pos (by norm_num : (0:ℝ) < 50) hG0) (by norm_num : (0.9 : ℝ) < 1)
        rcases inv N with ⟨j, _, hlt⟩ | hG
        · exact ⟨j, hlt⟩
        · refine ⟨N, ?_⟩
          rw [hG]
          calc (0.9 : ℝ) ^ N * guardVal s < 50 / guardVal s * guardVal s :=
                mul_lt_mul_of_pos_right hN hG0
            _ = 50 := div_mul_cancel₀ 50 (ne_of_gt hG0)
    obtain ⟨j, hj⟩ := key
    have hfix : zoom (zoomIter s j) 0.9 none = zoomIter s j :=
      zoom_fixed _ 0.9 none (by norm_num) hj
    exact ⟨j, zoomIter_const_from s j hfix⟩

/-- C1 witness: the floor/application dichotomy and stabilization at the
concrete ready state with factor 0.9 and default pivot. -/
theorem zoom_floor_behavior_witness :
    ((0.9 : ℝ) < 1 → guardVal exampleState < 50 → zoom exampleState 0.9 none = exampleState) ∧
    (¬ ((0.9 : ℝ) < 1 ∧ guardVal exampleState < 50) →
      (zoom exampleState 0.9 none).matrix = ((exampleState.matrix.translate (pivotX exampleState none) (pivotY exampleState none)).scale 0.9).translate (-(pivotX exampleState none)) (-(pivotY exampleState none))) ∧
    (∃ n, ∀ m, n ≤ m → zoomIter exampleState m = zoomIter exampleState n) :=
  zoom_floor_behavior exampleState 0.9 none exampleState_ready

/-!
C6: invertibility along operation sequences.
-/

/-- Dimension fields (never touched by the transform operations) agree. -/
def sameDims (s t : ViewportState) : Prop :=
  t.containerWidth = s.containerWidth ∧ t.containerHeight = s.containerHeight ∧
  t.contentWidth = s.contentWidth ∧ t.contentHeight = s.contentHeight

/-- The side condition forced by the counterexample: each operation's
effective scale factor must be nonzero. -/
def admissible (s : ViewportState) : Op → Prop
  | .zoom f _ => f ≠ 0
  | .rotate _ _ => True
  | .rotateExact _ => True
  | .centerImage padding =>
      min ((s.containerWidth - padding) / s.contentWidth)
          ((s.containerHeight - padding) / s.contentHeight) ≠ 0
  | .pad _ _ => True
  | .select r => min (s.containerWidth / r.w) (s.containerHeight / r.h) ≠ 0

theorem sameDims_refl (s : ViewportState) : sameDims s s := ⟨rfl, rfl, rfl, rfl⟩

theorem sameDims_applyOp (s : ViewportState) (op : Op) : sameDims s (applyOp s op) := by
  cases op <;> simp only [applyOp] <;>
    first
      | (unfold zoom; split_ifs <;> exact ⟨rfl, rfl, rfl, rfl⟩)
      | (unfold rotateOp; split_ifs <;> exact ⟨rfl, rfl, rfl, rfl⟩)
      | (unfold rotateExact; split_ifs <;> exact ⟨rfl, rfl, rfl, rfl⟩)
      | (unfold centerImage; split_ifs <;> exact ⟨rfl, rfl, rfl, rfl⟩)
      | (unfold pad; split_ifs <;> exact ⟨rfl, rfl, rfl, rfl⟩)
      | (unfold select; split_ifs <;> exact ⟨rfl, rfl, rfl, rfl⟩)

theorem sameDims_trans {s t u : ViewportState} (h1 : sameDims s t) (h2 : sameDims t u) :
    sameDims s u :=
  ⟨h2.1.trans h1.1, h2.2.1.trans h1.2.1, h2.2.2.1.trans h1.2.2.1, h2.2.2.2.trans h1.2.2.2⟩

theorem admissible_of_sameDims {s t : ViewportState} (h : sameDims s t) (op : Op)
    (ha : admissible s op) : admissible t op := by
  cases op with
  | zoom f p => exact ha
  | rotate d p => trivial
  | rotateExact d => trivial
  | centerImage padding =>
    simp only [admissible] at ha ⊢
    rw [h.1, h.2.1, h.2.2.1, h.2.2.2]
    exact ha
  | pad x y => trivial
  | select r =>
    simp only [admissible] at ha ⊢
    rw [h.1, h.2.1]
    exact ha

theorem det_applyOp (s : ViewportState) (op : Op) (hdet : s.matrix.det ≠ 0)
    (hadm : admissible s op) : (applyOp s op).matrix.det ≠ 0 := by
  cases op with
  | zoom f p =>
    simp only [applyOp]
    unfold zoom
    split_ifs
    · exact hdet
    · exact hdet
    · show (((s.matrix.translate _ _).scale f).translate _ _).det ≠ 0
      rw [Matrix2D.det_translate, Matrix2D.det_scale, Matrix2D.det_translate]
      exact mul_ne_zero hdet (mul_ne_zero hadm hadm)
  | rotate d p =>
    simp only [applyOp]
    unfold rotateOp
    split_ifs
    · exact hdet
    · show (((s.matrix.translate _ _).rotate d).translate _ _).det ≠ 0
      rw [Matrix2D.det_translate, Matrix2D.det_rotate, Matrix2D.det_translate]
      exact hdet
  | rotateExact d =>
    simp only [applyOp]
    unfold rotateExact
    split_ifs
    · exact hdet
    · show ((((s.matrix.translate _ _).rotate _).rotate d).translate _ _).det ≠ 0
      rw [Matrix2D.det_translate, Matrix2D.det_rotate, Matrix2D.det_rotate,
          Matrix2D.det_translate]
      exact hdet
  | centerImage padding =>
    simp only [applyOp]
    unfold centerImage
    split_ifs
    · exact hdet
    · show (((Matrix2D.identity.translate _ _).scale _).translate _ _).det ≠ 0
      rw [Matrix2D.det_translate, Matrix2D.det_scale, Matrix2D.det_translate]
      exact mul_ne_zero (by norm_num [Matrix2D.identity, Matrix2D.det])
        (mul_ne_zero hadm hadm)
  | pad x y =>
    simp only [applyOp]
    unfold pad
    split_ifs
    · exact hdet
    · show (s.matrix.translate _ _).det ≠ 0
      rw [Matrix2D.det_translate]
      exact hdet
  | select r =>
    simp only [applyOp]
    unfold select
    split_ifs
    · exact hdet
    · show (((s.matrix.translate _ _).scale _).translate _ _).det ≠ 0
      rw [Matrix2D.det_translate, Matrix2D.det_scale, Matrix2D.det_translate]
      exact mul_ne_zero hdet (mul_ne_zero hadm hadm)

/-- C6 (amended): starting from the identity transform on any viewport, the
matrix determinant never reaches 0 along any sequence of public operations,
provided each operation's effective scale factor is nonzero (zoom factor,
fit scale, and zoom-to-selection scale).  (In the exact-arithmetic model
entries are always finite reals, so the NaN/Infinity clause is subsumed by
invertibility.) -/
theorem reachable_det_ne_zero (s0 : ViewportState) (h0 : s0.matrix = Matrix2D.identity)
    (ops : List Op) (hadm : ∀ op ∈ ops, admissible s0 op) :
    (applyOps s0 ops).matrix.det ≠ 0 := by
  have hdet0 : s0.matrix.det ≠ 0 := by
    rw [h0]; norm_num [Matrix2D.identity, Matrix2D.det]
  have main : ∀ (l : List Op) (s : ViewportState), s.matrix.det ≠ 0 → sameDims s0 s →
      (∀ op ∈ l, admissible s0 op) → (l.foldl applyOp s).matrix.det ≠ 0 := by
    intro l
    induction l with
    | nil => intro s hd _ _; exact hd
    | cons op t ih =>
      intro s hd hdim hadml
      have hadm_op : admissible s op :=
        admissible_of_sameDims hdim op (hadml op (List.mem_cons_self op t))
      exact ih (applyOp s op) (det_applyOp s op hd hadm_op)
        (sameDims_trans hdim (sameDims_applyOp s op))
        (fun o ho => hadml o (List.mem_cons_of_mem op ho))
  exact main ops s0 hdet0 (sameDims_refl s0) hadm

/-- C6 counterexample: from the identity transform on the concrete ready
viewport, the single public call `zoom(0)` (its factor is below 1 but the
content is 400 px on screen, so the floor does not reject it) yields a matrix
with determinant exactly 0. -/
theorem reachable_det_zero_cex :
    (applyOps exampleState [Op.zoom 0 none]).matrix.det = 0 := by
  show (zoom exampleState 0 none).matrix.det = 0
  have hfloor : ¬ ((0 : ℝ) < 1 ∧ guardVal exampleState < 50) := by
    norm_num [guardVal, currentScaleOf, exampleState, Matrix2D.identity, Real.sqrt_one]
  rw [zoom_apply exampleState 0 none exampleState_ready hfloor]
  show (((exampleState.matrix.translate (pivotX exampleState none) (pivotY exampleState none)).scale 0).translate (-(pivotX exampleState none)) (-(pivotY exampleState none))).det = 0
  rw [Matrix2D.det_translate, Matrix2D.det_scale, Matrix2D.det_translate]
  ring

/-- C6 witness: the amended invariant on the concrete viewport for the
sequence zoom(2) → rotate(30°) → pan(5,5) → fit(40) → zoom-to-selection. -/
theorem reachable_det_ne_zero_witness :
    (applyOps exampleState [Op.zoom 2 none, Op.rotate 30 none, Op.pad 5 5,
      Op.centerImage 40, Op.select ⟨100, 100, 200, 100⟩]).matrix.det ≠ 0 := by
  refine reachable_det_ne_zero exampleState rfl _ ?_
  intro op hop
  simp only [List.mem_cons, List.not_mem_nil, or_false] at hop
  rcases hop with h | h | h | h | h <;> subst h <;>
    norm_num [admissible, exampleState, min_def]

/-!
C9: idempotence of `rotateExact(0)` on program states.

Every matrix reachable through the public operations is a (possibly
degenerate) similarity, `d = a` and `c = -b`; on such matrices the
`atan2`-extraction of `rotateExact` cancels the rotation exactly.
-/

/-- The linear part is a scalar multiple of a rotation: `d = a ∧ c = -b`. -/
def isSimilarity (m : Matrix2D) : Prop := m.d = m.a ∧ m.c = -m.b

theorem isSimilarity_translate (m : Matrix2D) (x y : ℝ) (h : isSimilarity m) :
    isSimilarity (m.translate x y) := h

theorem isSimilarity_scale (m : Matrix2D) (f : ℝ) (h : isSimilarity m) :
    isSimilarity (m.scale f) := by
  obtain ⟨hd, hc⟩ := h
  exact ⟨by simp only [Matrix2D.scale]; rw [hd], by simp only [Matrix2D.scale]; rw [hc]; ring⟩

theorem isSimilarity_rotate (m : Matrix2D) (deg : ℝ) (h : isSimilarity m) :
    isSimilarity (m.rotate deg) := by
  obtain ⟨hd, hc⟩ := h
  constructor
  · simp only [Matrix2D.rotate]
    rw [hd, hc]
    ring
  · simp only [Matrix2D.rotate]
    rw [hd, hc]
    ring

theorem isSimilarity_identity : isSimilarity Matrix2D.identity := ⟨rfl, by norm_num [Matrix2D.identity]⟩

theorem isSimilarity_applyOp (s : ViewportState) (op : Op) (h : isSimilarity s.matrix) :
    isSimilarity (applyOp s op).matrix := by
  cases op with
  | zoom f p =>
    simp only [applyOp]; unfold zoom; split_ifs
    · exact h
    · exact h
    · exact isSimilarity_translate _ _ _ (isSimilarity_scale _ _ (isSimilarity_translate _ _ _ h))
  | rotate d p =>
    simp only [applyOp]; unfold rotateOp; split_ifs
    · exact h
    · exact isSimilarity_translate _ _ _ (isSimilarity_rotate _ _ (isSimilarity_translate _ _ _ h))
  | rotateExact d =>
    simp only [applyOp]; unfold rotateExact; split_ifs
    · exact h
    · exact isSimilarity_translate _ _ _ (isSimilarity_rotate _ _ (isSimilarity_rotate _ _ (isSimilarity_translate _ _ _ h)))
  | centerImage padding =>
    simp only [applyOp]; unfold centerImage; split_ifs
    · exact h
    · exact isSimilarity_translate _ _ _ (isSimilarity_scale _ _ (isSimilarity_translate _ _ _ isSimilarity_identity))
  | pad x y =>
    simp only [applyOp]; unfold pad; split_ifs
    · exact h
    · exact isSimilarity_translate _ _ _ h
  | select r =>
    simp only [applyOp]; unfold select; split_ifs
    · exact h
    · exact isSimilarity_translate _ _ _ (isSimilarity_scale _ _ (isSimilarity_translate _ _ _ h))

theorem isSimilarity_applyOps (s0 : ViewportState) (h0 : isSimilarity s0.matrix)
    (ops : List Op) : isSimilarity (applyOps s0 ops).matrix := by
  induction ops generalizing s0 with
  | nil => exact h0
  | cons op t ih => exact ih (applyOp s0 op) (isSimilarity_applyOp s0 op h0)

/-- On a matrix with `b = 0` and `a ≥ 0` the extracted angle is 0, so
`rotateExact(0)` does nothing at all. -/
theorem rotateExact_zero_noop (s : ViewportState) (hb : s.matrix.b = 0)
    (ha : 0 ≤ s.matrix.a) : rotateExact s 0 = s := by
  by_cases hr : notReady s
  · rw [rotateExact, if_pos hr]
  · rw [rotateExact, if_neg hr]
    have harg : atan2 s.matrix.b s.matrix.a = 0 := by
      rw [atan2]
      exact Complex.arg_eq_zero_iff.mpr ⟨ha, hb⟩
    rw [harg]
    norm_num [Matrix2D.rotate_zero, Matrix2D.translate_translate_neg]

/-- After one `rotateExact(0)` on a ready similarity state, the matrix has
`b = 0` and `a ≥ 0`. -/
theorem rotateExact_zero_shape (s : ViewportState) (hr : ready s)
    (hsim : isSimilarity s.matrix) :
    (rotateExact s 0).matrix.b = 0 ∧ 0 ≤ (rotateExact s 0).matrix.a := by
  obtain ⟨hd, hc⟩ := hsim
  rw [rotateExact, if_neg hr]
  simp only [Matrix2D.rotate_zero]
  by_cases hz : s.matrix.a = 0 ∧ s.matrix.b = 0
  · constructor
    · simp only [Matrix2D.translate, Matrix2D.rotate]
      rw [hz.2, hd, hz.1]
      ring
    · simp only [Matrix2D.translate, Matrix2D.rotate]
      rw [hz.1, hc, hz.2]
      norm_num
  · have hzc : (⟨s.matrix.a, s.matrix.b⟩ : ℂ) ≠ 0 := by
      intro hcon
      rw [Complex.ext_iff] at hcon
      exact hz ⟨hcon.1, hcon.2⟩
    have hsq : 0 < s.matrix.a * s.matrix.a + s.matrix.b * s.matrix.b := by
      rcases not_and_or.mp hz with h | h
      · have := mul_self_pos.mpr h
        nlinarith [mul_self_nonneg s.matrix.b]
      · have := mul_self_pos.mpr h
        nlinarith [mul_self_nonneg s.matrix.a]
    have hρpos : 0 < Real.sqrt (s.matrix.a * s.matrix.a + s.matrix.b * s.matrix.b) :=
      Real.sqrt_pos.mpr hsq
    have habs : Complex.abs ⟨s.matrix.a, s.matrix.b⟩ =
        Real.sqrt (s.matrix.a * s.matrix.a + s.matrix.b * s.matrix.b) := by
      rw [Complex.abs_apply, Complex.normSq_mk]
    have hcos : Real.cos (atan2 s.matrix.b s.matrix.a) =
        s.matrix.a / Real.sqrt (s.matrix.a * s.matrix.a + s.matrix.b * s.matrix.b) := by
      rw [atan2, Complex.cos_arg hzc, habs]
    have hsin : Real.sin (atan2 s.matrix.b s.matrix.a) =
        s.matrix.b / Real.sqrt (s.matrix.a * s.matrix.a + s.matrix.b * s.matrix.b) := by
      rw [atan2, Complex.sin_arg, habs]
    have hθ : -(atan2 s.matrix.b s.matrix.a) * (180 / Real.pi) * (Real.pi / 180) =
        -(atan2 s.matrix.b s.matrix.a) := by
      have hpi := Real.pi_ne_zero
      field_simp
      ring
    constructor
    · simp only [Matrix2D.translate, Matrix2D.rotate]
      rw [hθ, Real.cos_neg, Real.sin_neg, hcos, hsin, hd]
      ring
    · simp only [Matrix2D.translate, Matrix2D.rotate]
      rw [hθ, Real.cos_neg, Real.sin_neg, hcos, hsin, hc]
      have heq : s.matrix.a *
            (s.matrix.a / Real.sqrt (s.matrix.a * s.matrix.a + s.matrix.b * s.matrix.b)) +
          -s.matrix.b *
            -(s.matrix.b / Real.sqrt (s.matrix.a * s.matrix.a + s.matrix.b * s.matrix.b)) =
          (s.matrix.a * s.matrix.a + s.matrix.b * s.matrix.b) /
            Real.sqrt (s.matrix.a * s.matrix.a + s.matrix.b * s.matrix.b) := by
        ring
      rw [heq]
      exact div_nonneg (le_of_lt hsq) (le_of_lt hρpos)

/-- C9: on every state of the program — i.e. every state reached from the
identity transform by a sequence of public operations — `rotateExact(0)` is
idempotent: a second call yields exactly the matrix of the first (the
`atan2(b, a)` extraction does not drift on a repeated no-op rotation in
exact arithmetic). -/
theorem rotateExact_zero_idempotent (s0 : ViewportState)
    (h0 : s0.matrix = Matrix2D.identity) (ops : List Op) :
    rotateExact (rotateExact (applyOps s0 ops) 0) 0 = rotateExact (applyOps s0 ops) 0 := by
  have hsim : isSimilarity (applyOps s0 ops).matrix :=
    isSimilarity_applyOps s0 (by rw [h0]; exact isSimilarity_identity) ops
  by_cases hr : notReady (applyOps s0 ops)
  · have h : rotateExact (applyOps s0 ops) 0 = applyOps s0 ops := by
      rw [rotateExact, if_pos hr]
    rw [h]
    exact h
  · obtain ⟨hb, ha⟩ := rotateExact_zero_shape (applyOps s0 ops) hr hsim
    exact rotateExact_zero_noop (rotateExact (applyOps s0 ops) 0) hb ha

/-- C9 witness: idempotence at the concrete ready state after a zoom and a
33° rotation. -/
theorem rotateExact_zero_idempotent_witness :
    rotateExact (rotateExact (applyOps exampleState [Op.zoom 2 none, Op.rotate 33 none]) 0) 0 =
      rotateExact (applyOps exampleState [Op.zoom 2 none, Op.rotate 33 none]) 0 :=
  rotateExact_zero_idempotent exampleState rfl [Op.zoom 2 none, Op.rotate 33 none]

/-!
C7, C8, C10: the gesture state machine and context-menu suppression.
-/

theorem rotateOp_suppress (s : ViewportState) (d : ℝ) (p : Option Pt) :
    (rotateOp s d p).suppressContextMenu = s.suppressContextMenu := by
  unfold rotateOp
  split_ifs
  · rfl
  · rfl

theorem rotateAtMousePoint_suppress (s : ViewportState) (d x y : ℝ) :
    (rotateAtMousePoint s d x y).suppressContextMenu = s.suppressContextMenu := by
  unfold rotateAtMousePoint
  split_ifs
  · rfl
  · exact rotateOp_suppress _ _ _

/-- C7 (amended): while a gesture session is active, pointer-move and
pointer-up/cancel events whose pointer id differs from the session's are
dropped without any effect; a further pointer-down, however, is not guarded
by the active session: when an action predicate accepts it (shown here for
the `pan` predicate) it replaces the active session with a fresh one for the
new pointer. -/
theorem gesture_session_events (c : ControlState) (e : PEvent)
    (_hdown : c.pointer.down = true) :
    (c.pointer.pointerId ≠ some e.pointerId →
      onPointerMove c e = c ∧ onPointerUp c e = c) ∧
    (e.shiftKey = false → e.ctrlKey = false →
      ¬ (c.viewport.containerWidth = 0 ∨ c.viewport.containerHeight = 0) →
      panDown c.viewport e = some true →
      (onPointerDown c e).pointer = startSession e ActionName.pan) := by
  constructor
  · intro hne
    constructor
    · rw [onPointerMove, if_pos (Or.inr hne)]
    · rw [onPointerUp, if_pos (Or.inr hne)]
  · intro hs hc hdim hpan
    have hmod : ¬ ((e.shiftKey || e.ctrlKey) = true) := by
      rw [hs, hc]
      norm_num
    rw [onPointerDown, if_neg hmod, if_neg hdim, if_pos hpan]

/-- A ready control state with an active middle-button pan session owned by
pointer 1. -/
def controlState0 : ControlState := ⟨exampleState, PointerState.idle⟩

/-- C7 counterexample: pointer 1 presses the middle button and acquires a pan
session; while that session is active, a second pointer-down from pointer 2
(same button) is not ignored — it replaces the session, whose pointer id
becomes 2. -/
theorem second_pointer_down_replaces_session_cex :
    (onPointerDown controlState0 ⟨1, 1, false, false, 100, 100⟩).pointer.pointerId = some 1 ∧
    (onPointerDown controlState0 ⟨1, 1, false, false, 100, 100⟩).pointer.down = true ∧
    (onPointerDown (onPointerDown controlState0 ⟨1, 1, false, false, 100, 100⟩)
        ⟨2, 1, false, false, 200, 200⟩).pointer.pointerId = some 2 := by
  norm_num [onPointerDown, controlState0, exampleState, panDown, startSession,
    PointerState.idle]

/-- C7 witness: the amended theorem on the active session created above, with
a mismatched-id move/up (pointer 9) and a matching second pan press from
pointer 2. -/
theorem gesture_session_events_witness :
    ((onPointerDown controlState0 ⟨1, 1, false, false, 100, 100⟩).pointer.pointerId ≠ some (9 : ℕ) →
      onPointerMove (onPointerDown controlState0 ⟨1, 1, false, false, 100, 100⟩) ⟨9, 0, false, false, 1, 1⟩ =
        onPointerDown controlState0 ⟨1, 1, false, false, 100, 100⟩ ∧
      onPointerUp (onPointerDown controlState0 ⟨1, 1, false, false, 100, 100⟩) ⟨9, 0, false, false, 1, 1⟩ =
        onPointerDown controlState0 ⟨1, 1, false, false, 100, 100⟩) ∧
    (false = false → false = false →
      ¬ ((onPointerDown controlState0 ⟨1, 1, false, false, 100, 100⟩).viewport.containerWidth = 0 ∨
         (onPointerDown controlState0 ⟨1, 1, false, false, 100, 100⟩).viewport.containerHeight = 0) →
      panDown (onPointerDown controlState0 ⟨1, 1, false, false, 100, 100⟩).viewport ⟨2, 1, false, false, 200, 200⟩ = some true →
      (onPointerDown (onPointerDown controlState0 ⟨1, 1, false, false, 100, 100⟩) ⟨2, 1, false, false, 200, 200⟩).pointer =
        startSession ⟨2, 1, false, false, 200, 200⟩ ActionName.pan) := by
  have h := gesture_session_events (onPointerDown controlState0 ⟨1, 1, false, false, 100, 100⟩)
    ⟨2, 1, false, false, 200, 200⟩ (by norm_num [onPointerDown, controlState0, exampleState,
      panDown, startSession, PointerState.idle])
  exact ⟨fun hne => (gesture_session_events (onPointerDown controlState0 ⟨1, 1, false, false, 100, 100⟩)
      ⟨9, 0, false, false, 1, 1⟩ (by norm_num [onPointerDown, controlState0, exampleState,
        panDown, startSession, PointerState.idle])).1 hne,
    h.2⟩

/-- C8: during an active area-select session, every pointer-move leaves the
pending selection null exactly when the horizontal or the vertical extent
from the start point is below the 12-pixel threshold, and otherwise stores
the normalized container-local rectangle (smaller corner as origin, absolute
extents as size). -/
theorem areaMove_threshold (c : ControlState) (e : PEvent)
    (hdown : c.pointer.down = true)
    (hid : c.pointer.pointerId = some e.pointerId)
    (hact : c.pointer.action = some ActionName.area) :
    (onPointerMove c e).viewport.area =
      (if |e.clientX - c.pointer.startX| < 12 ∨ |e.clientY - c.pointer.startY| < 12 then none
       else some ⟨min (c.pointer.startX - c.viewport.containerLeft)
                      (c.pointer.startX - c.viewport.containerLeft + (e.clientX - c.pointer.startX)),
                  min (c.pointer.startY - c.viewport.containerTop)
                      (c.pointer.startY - c.viewport.containerTop + (e.clientY - c.pointer.startY)),
                  |e.clientX - c.pointer.startX|, |e.clientY - c.pointer.startY|⟩) := by
  have hcond : ¬ (c.pointer.down = false ∨ c.pointer.pointerId ≠ some e.pointerId) := by
    rw [hdown, hid]
    norm_num
  rw [onPointerMove, if_neg hcond]
  simp only [hact]
  rw [areaMove]
  split_ifs with h
  · rfl
  · rfl

/-- A ready control state with an active right-button area-select session
owned by pointer 5, started at screen point (10, 10). -/
def areaSessionState : ControlState :=
  ⟨exampleState, ⟨false, some 5, true, some ActionName.area, 10, 10, 10, 10⟩⟩

/-- C8 witness: with the container at the screen origin, a drag from (10,10)
by (5,5) yields no selection, while a drag by (20,20) yields the rect
`{x:10, y:10, w:20, h:20}` — both via the theorem. -/
theorem areaMove_threshold_witness :
    (onPointerMove areaSessionState ⟨5, 2, false, false, 15, 15⟩).viewport.area = none ∧
    (onPointerMove areaSessionState ⟨5, 2, false, false, 30, 30⟩).viewport.area =
      some ⟨10, 10, 20, 20⟩ := by
  constructor
  · rw [areaMove_threshold areaSessionState ⟨5, 2, false, false, 15, 15⟩ rfl rfl rfl]
    norm_num [areaSessionState, exampleState]
  · rw [areaMove_threshold areaSessionState ⟨5, 2, false, false, 30, 30⟩ rfl rfl rfl]
    norm_num [areaSessionState, exampleState, min_def]

/-- C10: the context-menu suppression flag is one-shot and shift-bypassed:
when the flag is set, a context-menu event without shift is prevented and
clears the flag, so the immediately following context-menu event is not
prevented; a context-menu event with shift is never prevented and leaves the
state untouched; the flag is raised by a wheel event with the right button
held, and by an area-select move whose extents reach the 12-pixel
threshold. -/
theorem contextmenu_suppression (c : ControlState) (e : WheelEvt) :
    (c.viewport.suppressContextMenu = true →
      (onContextMenu c false).2 = true ∧
      (onContextMenu c false).1.viewport.suppressContextMenu = false ∧
      (onContextMenu (onContextMenu c false).1 false).2 = false) ∧
    (onContextMenu c true = (c, false)) ∧
    (e.buttons = 2 → (onWheel c e).viewport.suppressContextMenu = true) ∧
    (∀ e' : PEvent, c.pointer.down = true → c.pointer.pointerId = some e'.pointerId →
      c.pointer.action = some ActionName.area →
      ¬ (|e'.clientX - c.pointer.startX| < 12 ∨ |e'.clientY - c.pointer.startY| < 12) →
      (onPointerMove c e').viewport.suppressContextMenu = true) := by
  refine ⟨fun hset => ?_, ?_, fun hb => ?_, fun e' hdown hid hact hbig => ?_⟩
  · have h1 : onContextMenu c false =
        ({ c with viewport := { c.viewport with suppressContextMenu := false } }, true) := by
      rw [onContextMenu]
      simp only [Bool.false_eq_true, if_false, hset, if_true]
    refine ⟨by rw [h1], by rw [h1], ?_⟩
    rw [h1, onContextMenu]
    simp
  · rw [onContextMenu]
    simp
  · simp only [onWheel, hb]
    norm_num [rotateAtMousePoint_suppress]
  · have hcond : ¬ (c.pointer.down = false ∨ c.pointer.pointerId ≠ some e'.pointerId) := by
      rw [hdown, hid]
      norm_num
    rw [onPointerMove, if_neg hcond]
    simp only [hact]
    rw [areaMove]
    rw [if_neg hbig]

/-- A control state with the suppression flag set and an active area session
owned by pointer 7 started at (10, 10). -/
def suppressedState : ControlState :=
  ⟨{ exampleState with suppressContextMenu := true },
   ⟨false, some 7, true, some ActionName.area, 10, 10, 10, 10⟩⟩

/-- C10 witness: the theorem's four clauses at the concrete suppressed state,
a right-button wheel event and a 30-pixel area drag move. -/
theorem contextmenu_suppression_witness :
    ((onContextMenu suppressedState false).2 = true ∧
      (onContextMenu suppressedState false).1.viewport.suppressContextMenu = false ∧
      (onContextMenu (onContextMenu suppressedState false).1 false).2 = false) ∧
    (onContextMenu suppressedState true = (suppressedState, false)) ∧
    ((onWheel suppressedState ⟨2, false, 5, 100, 100⟩).viewport.suppressContextMenu = true) ∧
    ((onPointerMove suppressedState ⟨7, 2, false, false, 40, 40⟩).viewport.suppressContextMenu = true) := by
  obtain ⟨h1, h2, h3, h4⟩ := contextmenu_suppression suppressedState ⟨2, false, 5, 100, 100⟩
  exact ⟨h1 rfl, h2, h3 rfl,
    h4 ⟨7, 2, false, false, 40, 40⟩ rfl rfl rfl (by norm_num [suppressedState])⟩

end SlickViewer
